import Mathlib

/-!
Verification development for the ai-chat-template repository.

Shallow embedding of the modules the claims concern:
* the task state machine (unnamed/part_001, taskState utilities);
* the flow registry (src/config/flows.js);
* the Kissflow gateway permission guard (src/lib/services/kissflow.js);
* pattern-based language detection (src/lib/services/languageDetection.js);
* Weaviate result processing (unnamed/part_003, processWeaviateResults);
* citation deduplication (src/App.js, dedupeByInstanceID);
* the best-effort translation helper (src/lib/services/openai.js).

Modelling conventions: JS numbers carrying relevance scores become rationals;
`Date.now()` becomes an explicit `now : Nat` parameter; a JS field that may be
`undefined` becomes an `Option`; a JS function that `throw`s becomes `Except`;
network effects become explicit oracle parameters together with a Bool that
records whether the network/SDK layer was actually invoked.
-/

set_option maxHeartbeats 1000000

/-! ## JS idiom helpers

`jsOrString o d` models the JS expression `o || d` on string-valued fields: a
missing field and the empty string are both falsy and fall through to the
default. -/

def jsOrString (o : Option String) (d : String) : String :=
  match o with
  | some s => if s = "" then d else s
  | none => d

/-! ## Task state machine (unnamed/part_001) -/

inductive TaskStatus where
  | IDLE
  | RUNNING
  | PAUSED
  | WAITING_INPUT
  | FAILED
  | COMPLETED
deriving DecidableEq, Repr

def statusName : TaskStatus → String
  | .IDLE => "IDLE"
  | .RUNNING => "RUNNING"
  | .PAUSED => "PAUSED"
  | .WAITING_INPUT => "WAITING_INPUT"
  | .FAILED => "FAILED"
  | .COMPLETED => "COMPLETED"

structure SavedContext where
  messageCount : Nat
  customData : List (String × String)
deriving DecidableEq, Repr

structure TaskState where
  taskId : String
  status : TaskStatus
  type : String
  flowKey : String
  currentStep : String
  savedContext : SavedContext
  createdAt : Nat
  updatedAt : Nat
  error : Option String
  completedAt : Option Nat
deriving DecidableEq, Repr

def createTaskState (taskId flowKey taskType currentStep : String) (now : Nat) : TaskState :=
  { taskId := taskId
    status := .IDLE
    type := taskType
    flowKey := flowKey
    currentStep := currentStep
    savedContext := { messageCount := 0, customData := [] }
    createdAt := now
    updatedAt := now
    error := none
    completedAt := none }

def updateTaskStatus (taskState : TaskState) (newStatus : TaskStatus) (now : Nat) : TaskState :=
  { taskState with status := newStatus, updatedAt := now }

def pauseTask (taskState : TaskState) (messageCount : Nat)
    (customData : List (String × String)) (now : Nat) : Except String TaskState :=
  if taskState.status ≠ .RUNNING then
    .error ("Cannot pause task in " ++ statusName taskState.status ++ " status")
  else
    .ok { taskState with
            status := .PAUSED
            savedContext := { messageCount := messageCount, customData := customData }
            updatedAt := now }

def resumeTask (taskState : TaskState) (now : Nat) : Except String TaskState :=
  if taskState.status ≠ .PAUSED then
    .error ("Cannot resume task in " ++ statusName taskState.status ++ " status")
  else
    .ok { taskState with status := .RUNNING, updatedAt := now }

def completeTask (taskState : TaskState) (now : Nat) : TaskState :=
  { taskState with status := .COMPLETED, completedAt := some now, updatedAt := now }

def failTask (taskState : TaskState) (err : Option String) (now : Nat) : TaskState :=
  { taskState with
      status := .FAILED
      error := some (jsOrString err "Unknown error")
      updatedAt := now }

def canPauseTask (taskState : TaskState) : Bool :=
  taskState.status = .RUNNING

def canResumeTask (taskState : TaskState) : Bool :=
  taskState.status = .PAUSED

def isTaskTerminal (taskState : TaskState) : Bool :=
  taskState.status = .COMPLETED ∨ taskState.status = .FAILED

/-! ## Flow registry (src/config/flows.js, current revision)

The GraphQL field-projection template strings (`weaviateFields`), the CRM
system prompt, the JSON schema and the dataset identifiers are opaque string
payloads that no claim inspects; they are omitted from the embedding.

`FLOWS` is the table of the four own properties of the FLOWS object literal.
The property read `FLOWS[flowKey]` in getFlowConfig is a plain-object access
that walks the prototype chain: for a key that is an Object.prototype member
name (toString, constructor, ...) it finds the inherited member, a truthy
function or object, so the falsiness guard in getFlowConfig does not fire;
`flowsBracketRead` models this three-way outcome. In isActionAllowedForFlow
the inherited member lacks actionsAllowed, so the includes call throws a
TypeError that lands in the catch; the Option-based match below returns false
for every unregistered string and is extensionally faithful. -/

inductive ActionType where
  | CREATE
  | READ
  | QUERY
  | UPDATE
  | ANSWER_ONLY
deriving DecidableEq, Repr

structure FlowConfig where
  key : String
  category : String
  name : String
  dataSourcesAllowed : List String
  weaviateClasses : List String
  translateQueryToThai : Bool
  kissflowProcessIds : List String
  actionsAllowed : List ActionType
  requiresSystemPrompt : Bool
  responseLanguage : String
  suggestedQuestions : List String
deriving DecidableEq, Repr

def FLOW_HR : FlowConfig :=
  { key := "HR"
    category := "HR"
    name := "Human Resources"
    dataSourcesAllowed := ["WEAVIATE"]
    weaviateClasses := ["HRMixlangRAG"]
    translateQueryToThai := false
    kissflowProcessIds := []
    actionsAllowed := [.ANSWER_ONLY]
    requiresSystemPrompt := true
    responseLanguage := "user-detected"
    suggestedQuestions :=
      ["What is our company vacation policy?",
       "How many sick days do employees get?"] }

def FLOW_TOR : FlowConfig :=
  { key := "TOR"
    category := "TOR"
    name := "Terms of Reference"
    dataSourcesAllowed := ["WEAVIATE"]
    weaviateClasses := ["TORForPOC"]
    translateQueryToThai := true
    kissflowProcessIds := []
    actionsAllowed := [.ANSWER_ONLY]
    requiresSystemPrompt := true
    responseLanguage := "user-detected"
    suggestedQuestions :=
      ["What are the project deliverables?",
       "What is the project timeline?"] }

def FLOW_CRM : FlowConfig :=
  { key := "CRM"
    category := "CRM"
    name := "Case Management"
    dataSourcesAllowed := ["WEAVIATE", "KISSFLOW"]
    weaviateClasses := ["CaseSolutionKnowledgeBase"]
    translateQueryToThai := true
    kissflowProcessIds := ["CRM_PROCESS"]
    actionsAllowed := [.ANSWER_ONLY, .CREATE, .READ, .QUERY, .UPDATE]
    requiresSystemPrompt := true
    responseLanguage := "user-detected"
    suggestedQuestions := ["อุปกรณ์พัง", "ระบบล่ม", "ปัญหาการเชื่อมต่อ"] }

def FLOW_LEAVE : FlowConfig :=
  { key := "LEAVE"
    category := "Leave Request"
    name := "Leave Request"
    dataSourcesAllowed := ["WEAVIATE", "KISSFLOW"]
    weaviateClasses := ["LeavePolicy"]
    translateQueryToThai := false
    kissflowProcessIds := ["Leave_Request_A57"]
    actionsAllowed := [.ANSWER_ONLY, .CREATE, .READ, .QUERY]
    requiresSystemPrompt := true
    responseLanguage := "user-detected"
    suggestedQuestions :=
      ["How much leave do I have left?",
       "How do I request leave?",
       "What is the leave policy?"] }

def FLOWS (flowKey : String) : Option FlowConfig :=
  if flowKey = "HR" then some FLOW_HR
  else if flowKey = "TOR" then some FLOW_TOR
  else if flowKey = "CRM" then some FLOW_CRM
  else if flowKey = "LEAVE" then some FLOW_LEAVE
  else none

def objectPrototypeMembers : List String :=
  ["constructor", "hasOwnProperty", "isPrototypeOf", "propertyIsEnumerable",
   "toLocaleString", "toString", "valueOf", "__proto__", "__defineGetter__",
   "__defineSetter__", "__lookupGetter__", "__lookupSetter__"]

inductive JsPropertyValue where
  | ownFlow (flow : FlowConfig)
  | inheritedMember (name : String)
  | undef
deriving DecidableEq, Repr

def flowsBracketRead (flowKey : String) : JsPropertyValue :=
  match FLOWS flowKey with
  | some flow => .ownFlow flow
  | none =>
    if objectPrototypeMembers.contains flowKey then .inheritedMember flowKey
    else .undef

def getFlowConfig (flowKey : String) : Except String JsPropertyValue :=
  match flowsBracketRead flowKey with
  | .undef => .error ("Unknown flow: " ++ flowKey)
  | v => .ok v

def isActionAllowedForFlow (flowKey : String) (action : ActionType) : Bool :=
  match FLOWS flowKey with
  | some flow => flow.actionsAllowed.contains action
  | none => false

def getWeaviateClassesForFlow (flowKey : String) : Except String (Option (List String)) :=
  (getFlowConfig flowKey).map (fun v =>
    match v with
    | .ownFlow flow => some flow.weaviateClasses
    | _ => none)

def getTranslateQueryToThaiForFlow (flowKey : String) : Except String Bool :=
  (getFlowConfig flowKey).map (fun v =>
    match v with
    | .ownFlow flow => flow.translateQueryToThai
    | _ => false)

def listAvailableFlows : List FlowConfig :=
  [FLOW_HR, FLOW_TOR, FLOW_CRM, FLOW_LEAVE]

/-! ## Kissflow gateway guard (src/lib/services/kissflow.js)

`createKissflowItem` is modelled as a function of the flow key plus a Bool
oracle saying whether the SDK initializes; the second component of the result
records whether `getKissflowSDK` (the first SDK/network touch point) was
reached. In the source, `validateActionForFlow` runs before `getFlowConfig`,
the process-id check, and the `try` block that first touches the SDK. -/

def validateActionForFlow (flowKey : String) (action : ActionType) : Except String Unit :=
  if isActionAllowedForFlow flowKey action = false then
    .error ("Action not allowed for flow " ++ flowKey)
  else
    .ok ()

inductive KissflowError where
  | actionNotPermitted (flowKey : String) (action : ActionType)
  | unknownFlow (flowKey : String)
  | noProcessConfigured (flowKey : String)
  | sdkNotInitialized
deriving DecidableEq, Repr

structure KissflowCreateResult where
  flowKey : String
  created : Bool
deriving DecidableEq, Repr

def createKissflowItem (flowKey : String) (sdkAvailable : Bool) :
    Except KissflowError KissflowCreateResult × Bool :=
  if isActionAllowedForFlow flowKey .CREATE = false then
    (.error (.actionNotPermitted flowKey .CREATE), false)
  else
    match FLOWS flowKey with
    | none => (.error (.unknownFlow flowKey), false)
    | some flow =>
      let processId := flow.kissflowProcessIds.headD ""
      if processId = "" then
        (.error (.noProcessConfigured flowKey), false)
      else if sdkAvailable then
        (.ok { flowKey := flowKey, created := true }, true)
      else
        (.error .sdkNotInitialized, true)

/-! ## Language detection (src/lib/services/languageDetection.js)

Text is modelled as the list of its character code points. Each language
pattern in the source is a one-character regex class, so a match count is the
number of characters inside the class. `Object.entries(scores)` enumerates the
pattern table in insertion order (th, en, ja, zh, es, fr, vi); the JS
`sort(([, a], [, b]) => b - a)[0]` is a stable descending sort followed by
taking the head, i.e. the earliest entry attaining the maximal score, with the
fallback pair `["en", 0]` used only when there are no entries at all. -/

def langCodes : List String := ["th", "en", "ja", "zh", "es", "fr", "vi"]

def langPattern (lang : String) (c : Nat) : Bool :=
  if lang = "th" then decide (0xE00 ≤ c ∧ c ≤ 0xE7F)
  else if lang = "en" then decide ((0x61 ≤ c ∧ c ≤ 0x7A) ∨ (0x41 ≤ c ∧ c ≤ 0x5A))
  else if lang = "ja" then decide ((0x3040 ≤ c ∧ c ≤ 0x309F) ∨ (0x30A0 ≤ c ∧ c ≤ 0x30FF))
  else if lang = "zh" then decide (0x4E00 ≤ c ∧ c ≤ 0x9FFF)
  else if lang = "es" then decide (0xE1 ≤ c ∧ c ≤ 0xFA)
  else if lang = "fr" then decide ((0xE0 ≤ c ∧ c ≤ 0xFB) ∨ c = 0x153 ∨ c = 0xE6)
  else if lang = "vi" then decide (0x103 ≤ c ∧ c ≤ 0x1EEF)
  else false

def countMatches (lang : String) (text : List Nat) : Nat :=
  (text.filter (langPattern lang)).length

def languageScore (lang : String) (text : List Nat) : ℚ :=
  if 0 < text.length then (countMatches lang text : ℚ) / (text.length : ℚ) else 0

def detectScores (text : List Nat) : List (String × ℚ) :=
  langCodes.map (fun lang => (lang, languageScore lang text))

def betterOf (acc : Option (String × ℚ)) (entry : String × ℚ) : Option (String × ℚ) :=
  match acc with
  | none => some entry
  | some best => if best.2 < entry.2 then some entry else some best

def argmaxFirst (entries : List (String × ℚ)) : Option (String × ℚ) :=
  entries.foldl betterOf none

structure LanguageDetectionResult where
  mainLanguage : String
  confidence : ℚ
  isReliable : Bool
deriving DecidableEq, Repr

def detectLanguage (text : List Nat) : LanguageDetectionResult :=
  match argmaxFirst (detectScores text) with
  | some top => { mainLanguage := top.1, confidence := top.2, isReliable := decide ((2 : ℚ)/5 < top.2) }
  | none => { mainLanguage := "en", confidence := 0, isReliable := false }

def translateToEnglishForRetrieval (text : String) (sourceLanguage : String) : String × Bool :=
  if sourceLanguage = "en" then (text, false)
  else (text, false)

/-! ## Weaviate result processing (unnamed/part_003, processWeaviateResults)

Each hit is modelled with the fields the four branches read; a field a hit may
lack is an `Option`. `jsOrString o d` models the JS expression `o || d` on
strings (empty string is falsy); `jsGE o t` models `o >= t` where `o` may be
`undefined` (a comparison against `undefined` is false). `mapWithIndex` models
`Array.prototype.map((item, idx) => ...)` applied after `filter`, so the index
is the position in the filtered array. The earlier revision of the module
(unnamed/part_002) has the same HR branch and default branch and no others. -/

structure WeaviateAdditional where
  certainty : Option ℚ
  score : Option ℚ
  distance : Option ℚ
deriving DecidableEq, Repr

structure WeaviateItem where
  additional : WeaviateAdditional
  instanceID : Option String
  documentDetail : Option String
  requesterName : Option String
  documentTopic : Option String
  caseNumber : Option String
  caseTitle : Option String
  caseDescription : Option String
  solutionDescription : Option String
  content : Option String
  title : Option String
deriving DecidableEq, Repr

structure ProcessedDoc where
  id : String
  content : String
  title : String
  score : ℚ
deriving DecidableEq, Repr

def jsTrim (s : String) : String :=
  String.mk (((s.data.dropWhile Char.isWhitespace).reverse.dropWhile Char.isWhitespace).reverse)

def jsGE (o : Option ℚ) (t : ℚ) : Bool :=
  match o with
  | some x => decide (t ≤ x)
  | none => false

def mapWithIndexFrom (f : Nat → α → β) (n : Nat) : List α → List β
  | [] => []
  | x :: xs => f n x :: mapWithIndexFrom f (n + 1) xs

def mapWithIndex (f : Nat → α → β) (l : List α) : List β :=
  mapWithIndexFrom f 0 l

def hrDoc (idx : Nat) (item : WeaviateItem) : ProcessedDoc :=
  { id := jsOrString item.instanceID ("doc_" ++ toString idx)
    content := jsOrString item.documentDetail ""
    title := jsOrString item.requesterName "Untitled"
    score := (item.additional.certainty).getD 0 }

def torDoc (idx : Nat) (item : WeaviateItem) : ProcessedDoc :=
  { id := jsOrString item.instanceID ("doc_" ++ toString idx)
    content := jsOrString item.documentDetail ""
    title := jsOrString item.documentTopic "Untitled"
    score := (item.additional.score).getD 0 }

def caseDoc (idx : Nat) (item : WeaviateItem) : ProcessedDoc :=
  { id := jsOrString item.instanceID (jsOrString item.caseNumber ("doc_" ++ toString idx))
    content := jsOrString item.solutionDescription (jsOrString item.caseDescription "")
    title := jsOrString item.caseTitle "Untitled"
    score := (item.additional.certainty).getD 0 }

def defaultDoc (idx : Nat) (item : WeaviateItem) : ProcessedDoc :=
  { id := "doc_" ++ toString idx
    content := jsOrString item.content ""
    title := jsOrString item.title "Untitled"
    score := 1 - (item.additional.distance).getD 0 }

def processWeaviateResults (results : List WeaviateItem) (scoreThreshold : ℚ)
    (className : String) : List ProcessedDoc :=
  if className = "HRMixlangRAG" then
    mapWithIndex hrDoc
      (results.filter (fun item => jsGE item.additional.certainty scoreThreshold))
  else if className = "TORForPOC" then
    mapWithIndex torDoc
      (results.filter (fun item => jsGE item.additional.score scoreThreshold))
  else if className = "CaseSolutionKnowledgeBase" then
    mapWithIndex caseDoc
      (results.filter (fun item => jsGE item.additional.certainty scoreThreshold))
  else
    mapWithIndex defaultDoc
      (results.filter (fun item => jsGE ((item.additional.distance).map (fun d => 1 - d)) scoreThreshold))

def normalizedScore (className : String) (item : WeaviateItem) : Option ℚ :=
  if className = "HRMixlangRAG" then item.additional.certainty
  else if className = "TORForPOC" then item.additional.score
  else if className = "CaseSolutionKnowledgeBase" then item.additional.certainty
  else (item.additional.distance).map (fun d => 1 - d)

def passesThreshold (className : String) (scoreThreshold : ℚ) (item : WeaviateItem) : Bool :=
  jsGE (normalizedScore className item) scoreThreshold

def normScoreD (className : String) (item : WeaviateItem) : ℚ :=
  (normalizedScore className item).getD 0

def branchDoc (className : String) : Nat → WeaviateItem → ProcessedDoc :=
  if className = "HRMixlangRAG" then hrDoc
  else if className = "TORForPOC" then torDoc
  else if className = "CaseSolutionKnowledgeBase" then caseDoc
  else defaultDoc

/-! ## Citation deduplication (src/App.js, dedupeByInstanceID)

A JS `Map` keyed by strings is an insertion-ordered association list whose
`set` replaces the value in place when the key is present and appends
otherwise; `Array.from(map.values())` is the list of second components.
`it.instanceID?.trim()` on the items built by the App.js pipeline is a string
(the pipeline supplies `d.instanceID || ""`), and a blank key skips the item.
`it.score ?? 0` becomes `Option.getD 0`. -/

structure RefItem where
  instanceID : String
  score : Option ℚ
  text : String
deriving DecidableEq, Repr

def keyOf (it : RefItem) : String :=
  jsTrim it.instanceID

def scoreOf (it : RefItem) : ℚ :=
  it.score.getD 0

def mapGet (m : List (String × RefItem)) (k : String) : Option RefItem :=
  match m with
  | [] => none
  | (k1, v1) :: rest => if k1 = k then some v1 else mapGet rest k

def mapSet (m : List (String × RefItem)) (k : String) (v : RefItem) : List (String × RefItem) :=
  match m with
  | [] => [(k, v)]
  | (k1, v1) :: rest => if k1 = k then (k, v) :: rest else (k1, v1) :: mapSet rest k v

def dedupeStep (m : List (String × RefItem)) (it : RefItem) : List (String × RefItem) :=
  let key := keyOf it
  if key = "" then m
  else
    match mapGet m key with
    | none => mapSet m key it
    | some prev => if scoreOf prev < scoreOf it then mapSet m key it else m

def dedupeByInstanceID (items : List RefItem) : List RefItem :=
  (items.foldl dedupeStep []).map Prod.snd

def MapInv (pre : List RefItem) (m : List (String × RefItem)) : Prop :=
  (m.map Prod.fst).Nodup
  ∧ (∀ p ∈ m, keyOf p.2 = p.1 ∧ p.1 ≠ "" ∧ p.2 ∈ pre)
  ∧ (∀ k, k ≠ "" → ((∃ it ∈ pre, keyOf it = k) ↔ (mapGet m k).isSome))
  ∧ (∀ k v, mapGet m k = some v → ∀ it ∈ pre, keyOf it = k → scoreOf it ≤ scoreOf v)

/-! ## Best-effort translation helper (src/lib/services/openai.js, translateToThai)

The provider oracle is either a failure (network error or non-2xx response,
both of which land in the `catch` that returns the input) or a response whose
content may be missing or empty (`data.choices?.[0]?.message?.content || text`).
The Bool in the result records whether the provider was called at all. -/

inductive ProviderResponse where
  | failure
  | ok (content : Option String)
deriving DecidableEq, Repr

def translateToThai (text : String) (provider : ProviderResponse) : String × Bool :=
  if jsTrim text = "" then (text, false)
  else
    match provider with
    | .failure => (text, true)
    | .ok content => (jsOrString content text, true)

/-! ## Concrete sample data used by witnesses and counterexamples -/

def sampleRunning : TaskState :=
  { taskId := "task_1"
    status := .RUNNING
    type := "analysis"
    flowKey := "TOR"
    currentStep := "retrieve"
    savedContext := { messageCount := 0, customData := [] }
    createdAt := 10
    updatedAt := 10
    error := none
    completedAt := none }

def samplePausedResult : TaskState :=
  { sampleRunning with
      status := .PAUSED
      savedContext := { messageCount := 7, customData := [] }
      updatedAt := 99 }

def sampleFailed : TaskState :=
  { sampleRunning with status := .FAILED, error := some "boom" }

def mkAdditional (certainty score distance : Option ℚ) : WeaviateAdditional :=
  { certainty := certainty, score := score, distance := distance }

def bareItem (additional : WeaviateAdditional) : WeaviateItem :=
  { additional := additional
    instanceID := none
    documentDetail := none
    requesterName := none
    documentTopic := none
    caseNumber := none
    caseTitle := none
    caseDescription := none
    solutionDescription := none
    content := none
    title := none }

def torHit (s : ℚ) : WeaviateItem :=
  bareItem (mkAdditional none (some s) none)

def distHit (d : ℚ) : WeaviateItem :=
  bareItem (mkAdditional none none (some d))

def sampleTORHits : List WeaviateItem :=
  [torHit (9/10), torHit (55/100), torHit (61/100)]

def refA72 : RefItem := { instanceID := "A", score := some (72/100), text := "first" }

def refA91 : RefItem := { instanceID := "A", score := some (91/100), text := "second" }

def demoRefItems : List RefItem := [refA72, refA91]

/-! ## Theorems -/

/-- Claim C5: pause succeeds exactly from RUNNING, yielding a PAUSED state whose
saved context records the supplied message count and whose updatedAt is the
transition time; resume succeeds exactly from PAUSED, yielding RUNNING with an
updated updatedAt; any other status produces an illegal-transition error. The
transitions are pure functions of the input state (the embedding returns a new
record and the conjuncts show the untouched fields are carried over unchanged,
so the input is never mutated in place). -/
theorem C5_pause_resume_transitions (s : TaskState) (mc : Nat)
    (cd : List (String × String)) (now : Nat) :
    ((∃ s2, pauseTask s mc cd now = .ok s2) ↔ s.status = .RUNNING)
    ∧ (∀ s2, pauseTask s mc cd now = .ok s2 →
        s2.status = .PAUSED ∧ s2.savedContext.messageCount = mc
          ∧ s2.savedContext.customData = cd ∧ s2.updatedAt = now
          ∧ s2.taskId = s.taskId ∧ s2.flowKey = s.flowKey ∧ s2.createdAt = s.createdAt)
    ∧ (s.status ≠ .RUNNING →
        pauseTask s mc cd now
          = .error ("Cannot pause task in " ++ statusName s.status ++ " status"))
    ∧ ((∃ s2, resumeTask s now = .ok s2) ↔ s.status = .PAUSED)
    ∧ (∀ s2, resumeTask s now = .ok s2 →
        s2.status = .RUNNING ∧ s2.updatedAt = now ∧ s2.taskId = s.taskId
          ∧ s2.savedContext = s.savedContext ∧ s2.createdAt = s.createdAt)
    ∧ (s.status ≠ .PAUSED →
        resumeTask s now
          = .error ("Cannot resume task in " ++ statusName s.status ++ " status")) := by
  refine ⟨⟨?_, ?_⟩, ?_, ?_, ⟨?_, ?_⟩, ?_, ?_⟩
  · rintro ⟨s2, h⟩
    by_cases hr : s.status = .RUNNING
    · exact hr
    · simp [pauseTask, hr] at h
  · intro hr
    refine ⟨{ s with status := .PAUSED,
                     savedContext := { messageCount := mc, customData := cd },
                     updatedAt := now }, ?_⟩
    simp [pauseTask, hr]
  · intro s2 h
    by_cases hr : s.status = .RUNNING
    · simp [pauseTask, hr] at h
      subst h
      simp
    · simp [pauseTask, hr] at h
  · intro hr
    simp [pauseTask, hr]
  · rintro ⟨s2, h⟩
    by_cases hp : s.status = .PAUSED
    · exact hp
    · simp [resumeTask, hp] at h
  · intro hp
    refine ⟨{ s with status := .RUNNING, updatedAt := now }, ?_⟩
    simp [resumeTask, hp]
  · intro s2 h
    by_cases hp : s.status = .PAUSED
    · simp [resumeTask, hp] at h
      subst h
      simp
    · simp [resumeTask, hp] at h
  · intro hp
    simp [resumeTask, hp]

/-- Claim C5 witness: pausing a concrete RUNNING task at message count 7 and
time 99 yields the expected PAUSED state. -/
theorem C5_pause_resume_transitions_witness :
    samplePausedResult.status = TaskStatus.PAUSED
      ∧ samplePausedResult.savedContext.messageCount = 7
      ∧ samplePausedResult.savedContext.customData = []
      ∧ samplePausedResult.updatedAt = 99
      ∧ samplePausedResult.taskId = sampleRunning.taskId
      ∧ samplePausedResult.flowKey = sampleRunning.flowKey
      ∧ samplePausedResult.createdAt = sampleRunning.createdAt :=
  (C5_pause_resume_transitions sampleRunning 7 [] 99).2.1 samplePausedResult rfl

/-- Claim C6 counterexample: the FAILED status is terminal, yet completeTask
rewrites it to COMPLETED and updateTaskStatus rewrites it to RUNNING, so a
transition on a terminal state is not rejected. -/
theorem C6_counterexample :
    isTaskTerminal sampleFailed = true
      ∧ (completeTask sampleFailed 99).status = TaskStatus.COMPLETED
      ∧ (updateTaskStatus sampleFailed .RUNNING 99).status = TaskStatus.RUNNING
      ∧ sampleFailed.status ≠ TaskStatus.COMPLETED := by
  refine ⟨by decide, rfl, rfl, by decide⟩

/-- Claim C6 amended: on a terminal state (FAILED or COMPLETED) the guarded
transitions pauseTask and resumeTask are rejected with an error, but the
unguarded completeTask, failTask and updateTaskStatus overwrite the status
unconditionally (callers are expected to consult isTaskTerminal first). -/
theorem C6_amended_terminal_guards (s : TaskState) (mc now : Nat)
    (cd : List (String × String)) (err : Option String) (st : TaskStatus) :
    isTaskTerminal s = true →
      (¬ ∃ s2, pauseTask s mc cd now = .ok s2)
      ∧ (¬ ∃ s2, resumeTask s now = .ok s2)
      ∧ (completeTask s now).status = .COMPLETED
      ∧ (failTask s err now).status = .FAILED
      ∧ (updateTaskStatus s st now).status = st := by
  intro h
  have hs : s.status = .COMPLETED ∨ s.status = .FAILED := by
    simpa [isTaskTerminal] using h
  refine ⟨?_, ?_, rfl, rfl, rfl⟩
  · rintro ⟨s2, h2⟩
    rcases hs with hs | hs <;> simp [pauseTask, hs] at h2
  · rintro ⟨s2, h2⟩
    rcases hs with hs | hs <;> simp [resumeTask, hs] at h2

/-- Claim C6 amended witness: on a concrete FAILED state, pause is rejected
while completeTask overwrites the status to COMPLETED. -/
theorem C6_amended_terminal_guards_witness :
    (¬ ∃ s2, pauseTask sampleFailed 3 [] 50 = .ok s2)
      ∧ (completeTask sampleFailed 50).status = TaskStatus.COMPLETED :=
  ⟨(C6_amended_terminal_guards sampleFailed 3 50 [] none .IDLE (by decide)).1,
   (C6_amended_terminal_guards sampleFailed 3 50 [] none .IDLE (by decide)).2.2.1⟩

/-- Claim C7 counterexample: toString is not a registered flow key, yet the
property read walks the prototype chain and finds the inherited truthy
Object.prototype member, so getFlowConfig returns it instead of failing with
the Unknown-flow error. -/
theorem C7_counterexample :
    FLOWS "toString" = none
      ∧ getFlowConfig "toString" = .ok (.inheritedMember "toString") := by
  refine ⟨by decide, rfl⟩

/-- Claim C7 amended: a registered flow key resolves to the flow definition
whose key field equals the lookup key; a key that is neither registered nor an
Object.prototype member name fails with the Unknown-flow error; but for an
Object.prototype member name (toString, constructor, ...) the lookup finds the
inherited member, which is truthy, and resolve returns it instead of
throwing. -/
theorem C7_amended_flow_registry_resolve (flowKey : String) :
    (∀ flow, FLOWS flowKey = some flow →
        getFlowConfig flowKey = .ok (.ownFlow flow) ∧ flow.key = flowKey)
    ∧ (FLOWS flowKey = none → flowKey ∉ objectPrototypeMembers →
        getFlowConfig flowKey = .error ("Unknown flow: " ++ flowKey))
    ∧ (FLOWS flowKey = none → flowKey ∈ objectPrototypeMembers →
        getFlowConfig flowKey = .ok (.inheritedMember flowKey)) := by
  refine ⟨?_, ?_, ?_⟩
  · intro flow h
    constructor
    · simp [getFlowConfig, flowsBracketRead, h]
    · unfold FLOWS at h
      split_ifs at h with h1 h2 h3 h4 <;>
        (injection h with h5
         subst h5
         simp_all [FLOW_HR, FLOW_TOR, FLOW_CRM, FLOW_LEAVE])
  · intro h hp
    simp [getFlowConfig, flowsBracketRead, h, hp]
  · intro h hp
    simp [getFlowConfig, flowsBracketRead, h, hp]

/-- Claim C7 amended witness: the registered key HR resolves to the HR flow
definition whose key field is HR, and the key BILLING, neither registered nor
an Object.prototype member, fails with the Unknown-flow error. -/
theorem C7_amended_flow_registry_resolve_witness :
    (getFlowConfig "HR" = .ok (.ownFlow FLOW_HR) ∧ FLOW_HR.key = "HR")
      ∧ getFlowConfig "BILLING" = .error ("Unknown flow: " ++ "BILLING") :=
  ⟨(C7_amended_flow_registry_resolve "HR").1 FLOW_HR (by decide),
   (C7_amended_flow_registry_resolve "BILLING").2.1 (by decide) (by decide)⟩

/-- Claim C8: isActionAllowedForFlow is a total Boolean guard: it is false when
the flow key does not resolve, and when the key resolves it is true exactly
when the action is in the flow's permitted-action list. (Being a Lean function
into Bool, it never throws.) -/
theorem C8_action_guard_total (flowKey : String) (action : ActionType) :
    (FLOWS flowKey = none → isActionAllowedForFlow flowKey action = false)
    ∧ (∀ flow, FLOWS flowKey = some flow →
        (isActionAllowedForFlow flowKey action = true ↔ action ∈ flow.actionsAllowed)) := by
  constructor
  · intro h
    simp [isActionAllowedForFlow, h]
  · intro flow h
    simp only [isActionAllowedForFlow, h]
    exact List.elem_iff

/-- Claim C8 witness: an unregistered flow key yields the defensive default
false. -/
theorem C8_action_guard_total_witness :
    isActionAllowedForFlow "UNREGISTERED" ActionType.CREATE = false :=
  (C8_action_guard_total "UNREGISTERED" ActionType.CREATE).1 (by decide)

/-- Claim C9: when CREATE is not permitted for a flow, createKissflowItem fails
with the action-not-permitted error and the SDK/network layer is never touched
(the Bool component recording whether getKissflowSDK was reached is false). -/
theorem C9_create_permission_first (flowKey : String) (sdkAvailable : Bool) :
    isActionAllowedForFlow flowKey .CREATE = false →
      createKissflowItem flowKey sdkAvailable
        = (.error (.actionNotPermitted flowKey .CREATE), false) := by
  intro h
  simp [createKissflowItem, h]

/-- Claim C9 witness: the HR flow permits ANSWER_ONLY only, so record creation
on HR fails before any SDK call even when the SDK would be available. -/
theorem C9_create_permission_first_witness :
    createKissflowItem "HR" true
      = (.error (.actionNotPermitted "HR" .CREATE), false) :=
  C9_create_permission_first "HR" true (by decide)

/-- Claim C10: the translation helper never propagates a provider failure: on
provider failure it returns the input text unchanged, and for input that is
empty or whitespace-only it returns the input unchanged without calling the
provider; the stubbed translateToEnglishForRetrieval likewise always returns
its input and never calls the provider. -/
theorem C10_translate_best_effort (text : String) (provider : ProviderResponse) :
    (translateToThai text .failure).1 = text
    ∧ (jsTrim text = "" → translateToThai text provider = (text, false))
    ∧ (∀ lang, translateToEnglishForRetrieval text lang = (text, false)) := by
  refine ⟨?_, ?_, ?_⟩
  · by_cases h : jsTrim text = "" <;> simp [translateToThai, h]
  · intro h
    simp [translateToThai, h]
  · intro lang
    by_cases h : lang = "en" <;> simp [translateToEnglishForRetrieval, h]

/-- Claim C10 witness: whitespace-only input is returned unchanged and the
provider is not called even when a successful provider response is at hand. -/
theorem C10_translate_best_effort_witness :
    translateToThai " " (ProviderResponse.ok (some "output")) = (" ", false) :=
  (C10_translate_best_effort " " (ProviderResponse.ok (some "output"))).2.1 (by decide)

/-- Claim C4 counterexample: on empty input every per-language score is zero
and detectLanguage returns the first configured language, Thai, not the base
language English; the en fallback pair in the source is reachable only from an
empty pattern table. -/
theorem C4_counterexample :
    (detectLanguage []).mainLanguage = "th"
      ∧ (detectLanguage []).mainLanguage ≠ "en" := by
  refine ⟨by decide, by decide⟩

theorem foldl_betterOf_mem (l : List (String × ℚ)) :
    ∀ acc p, l.foldl betterOf acc = some p → acc = some p ∨ p ∈ l := by
  induction l with
  | nil =>
    intro acc p h
    exact Or.inl h
  | cons x xs ih =>
    intro acc p h
    simp only [List.foldl_cons] at h
    rcases ih (betterOf acc x) p h with h2 | h2
    · cases acc with
      | none =>
        simp only [betterOf] at h2
        injection h2 with h3
        exact Or.inr (h3 ▸ List.mem_cons_self x xs)
      | some a =>
        simp only [betterOf] at h2
        by_cases hlt : a.2 < x.2
        · rw [if_pos hlt] at h2
          injection h2 with h3
          exact Or.inr (h3 ▸ List.mem_cons_self x xs)
        · rw [if_neg hlt] at h2
          exact Or.inl h2
    · exact Or.inr (List.mem_cons_of_mem x h2)

theorem foldl_betterOf_isSome (l : List (String × ℚ)) :
    ∀ acc, acc.isSome → (l.foldl betterOf acc).isSome := by
  induction l with
  | nil =>
    intro acc h
    simpa using h
  | cons x xs ih =>
    intro acc h
    simp only [List.foldl_cons]
    apply ih
    cases acc with
    | none => simp [betterOf]
    | some a =>
      simp only [betterOf]
      split <;> simp

theorem foldl_betterOf_stay :
    ∀ (l : List (String × ℚ)) (a : String × ℚ),
      (∀ q ∈ l, ¬ a.2 < q.2) → l.foldl betterOf (some a) = some a
  | [], _, _ => rfl
  | x :: xs, a, h => by
    have hx : ¬ a.2 < x.2 := h x (List.mem_cons_self x xs)
    simp only [List.foldl_cons, betterOf, if_neg hx]
    exact foldl_betterOf_stay xs a (fun q hq => h q (List.mem_cons_of_mem x hq))

theorem languageScore_nonneg (lang : String) (text : List Nat) :
    0 ≤ languageScore lang text := by
  unfold languageScore
  split
  · positivity
  · exact le_refl 0

theorem languageScore_le_one (lang : String) (text : List Nat) :
    languageScore lang text ≤ 1 := by
  unfold languageScore
  split
  · next h =>
    rw [div_le_one (by exact_mod_cast h)]
    exact_mod_cast List.length_filter_le (langPattern lang) text
  · norm_num

/-- Claim C4 amended: detect always returns a mainLanguage among the configured
codes with confidence in [0,1] computed as matching-character count over input
length; when all per-language scores are zero (empty or code-only input) it
returns the first configured language, Thai — not English, whose fallback pair
in the source is reachable only from an empty pattern table. -/
theorem C4_amended_detect (text : List Nat) :
    (detectLanguage text).mainLanguage ∈ langCodes
    ∧ 0 ≤ (detectLanguage text).confidence
    ∧ (detectLanguage text).confidence ≤ 1
    ∧ ((∀ p ∈ detectScores text, p.2 = 0) → (detectLanguage text).mainLanguage = "th") := by
  have hds : detectScores text
      = ("th", languageScore "th" text)
          :: (["en", "ja", "zh", "es", "fr", "vi"].map
                (fun lang => (lang, languageScore lang text))) := rfl
  have hsome : (argmaxFirst (detectScores text)).isSome := by
    rw [argmaxFirst, hds]
    simp only [List.foldl_cons]
    apply foldl_betterOf_isSome
    simp [betterOf]
  obtain ⟨top, htop⟩ := Option.isSome_iff_exists.mp hsome
  have hmem : top ∈ detectScores text := by
    rcases foldl_betterOf_mem (detectScores text) none top htop with h | h
    · cases h
    · exact h
  obtain ⟨lang, hl, ht⟩ := List.mem_map.mp (by simpa [detectScores] using hmem)
  have hdl : detectLanguage text
      = { mainLanguage := top.1, confidence := top.2,
          isReliable := decide ((2 : ℚ)/5 < top.2) } := by
    unfold detectLanguage
    rw [htop]
  refine ⟨?_, ?_, ?_, ?_⟩
  · rw [hdl, ← ht]
    simpa using hl
  · rw [hdl, ← ht]
    exact languageScore_nonneg lang text
  · rw [hdl, ← ht]
    exact languageScore_le_one lang text
  · intro hzero
    have hhead : languageScore "th" text = 0 := by
      have := hzero ("th", languageScore "th" text) (by rw [hds]; exact List.mem_cons_self _ _)
      simpa using this
    have hval : argmaxFirst (detectScores text) = some ("th", languageScore "th" text) := by
      rw [argmaxFirst, hds]
      simp only [List.foldl_cons, betterOf]
      apply foldl_betterOf_stay
      intro q hq
      have hq2 : q.2 = 0 := hzero q (by rw [hds]; exact List.mem_cons_of_mem _ hq)
      simp [hq2, hhead]
    have heq : top = ("th", languageScore "th" text) := by
      rw [htop] at hval
      injection hval
    rw [hdl, heq]

/-- Claim C4 amended witness: the input consisting of the single digit
character 0 matches no script, so every score is zero and detect returns
Thai. -/
theorem C4_amended_detect_witness : (detectLanguage [48]).mainLanguage = "th" :=
  (C4_amended_detect [48]).2.2.2
    (by norm_num [detectScores, langCodes, languageScore, countMatches, langPattern])

theorem mapWithIndexFrom_length (f : Nat → α → β) (l : List α) :
    ∀ n, (mapWithIndexFrom f n l).length = l.length := by
  induction l with
  | nil =>
    intro n
    rfl
  | cons x xs ih =>
    intro n
    simp [mapWithIndexFrom, ih]

theorem mapWithIndexFrom_mem (f : Nat → α → β) (l : List α) :
    ∀ n b, b ∈ mapWithIndexFrom f n l → ∃ i a, a ∈ l ∧ b = f i a := by
  induction l with
  | nil =>
    intro n b h
    simp [mapWithIndexFrom] at h
  | cons x xs ih =>
    intro n b h
    rcases List.mem_cons.mp h with h2 | h2
    · exact ⟨n, x, List.mem_cons_self x xs, h2⟩
    · obtain ⟨i, a, ha, hb⟩ := ih (n + 1) b h2
      exact ⟨i, a, List.mem_cons_of_mem x ha, hb⟩

theorem mapWithIndexFrom_map_eq (f : Nat → α → β) (proj : β → γ) (g : α → γ) :
    ∀ (l : List α), (∀ a ∈ l, ∀ i, proj (f i a) = g a) →
      ∀ n, (mapWithIndexFrom f n l).map proj = l.map g
  | [], _, _ => rfl
  | x :: xs, h, n => by
    simp only [mapWithIndexFrom, List.map_cons]
    rw [h x (List.mem_cons_self x xs) n,
        mapWithIndexFrom_map_eq f proj g xs
          (fun a ha i => h a (List.mem_cons_of_mem x ha) i) (n + 1)]

theorem branchDoc_score (className : String) (item : WeaviateItem) (i : Nat) (s : ℚ)
    (h : normalizedScore className item = some s) :
    (branchDoc className i item).score = s := by
  unfold branchDoc normalizedScore at *
  split_ifs at h ⊢
  · simp only [hrDoc]
    rw [h]
    rfl
  · simp only [torDoc]
    rw [h]
    rfl
  · simp only [caseDoc]
    rw [h]
    rfl
  · cases hd : item.additional.distance with
    | none =>
      rw [hd] at h
      cases h
    | some d =>
      rw [hd] at h
      have h2 : 1 - d = s := by simpa using h
      simp only [defaultDoc, hd]
      rw [← h2]
      rfl

theorem normalizedScore_TOR (item : WeaviateItem) :
    normalizedScore "TORForPOC" item = item.additional.score := by
  unfold normalizedScore
  rw [if_neg (by decide), if_pos rfl]

theorem processWeaviateResults_TOR (results : List WeaviateItem) (t : ℚ) :
    processWeaviateResults results t "TORForPOC"
      = mapWithIndex torDoc
          (results.filter (fun item => jsGE item.additional.score t)) := by
  unfold processWeaviateResults
  rw [if_neg (by decide), if_pos rfl]

theorem processWeaviateResults_generic (results : List WeaviateItem) (t : ℚ) :
    processWeaviateResults results t "GenericVectorClass"
      = mapWithIndex defaultDoc
          (results.filter
            (fun item => jsGE ((item.additional.distance).map (fun d => 1 - d)) t)) := by
  unfold processWeaviateResults
  rw [if_neg (by decide), if_neg (by decide), if_neg (by decide)]

theorem processWeaviateResults_eq (results : List WeaviateItem) (t : ℚ) (className : String) :
    processWeaviateResults results t className
      = mapWithIndex (branchDoc className) (results.filter (passesThreshold className t)) := by
  unfold processWeaviateResults branchDoc passesThreshold normalizedScore
  split_ifs <;> rfl

theorem branch_doc_facts (results : List WeaviateItem) (t : ℚ) (className : String) :
    ∀ doc ∈ processWeaviateResults results t className,
      ∃ item, item ∈ results ∧ normalizedScore className item = some doc.score
        ∧ t ≤ doc.score := by
  intro doc hdoc
  rw [processWeaviateResults_eq] at hdoc
  obtain ⟨i, item, hitem, hd⟩ := mapWithIndexFrom_mem (branchDoc className) _ 0 doc hdoc
  have hmem := (List.mem_filter.mp hitem).1
  have hpass := (List.mem_filter.mp hitem).2
  cases hm : normalizedScore className item with
  | none =>
    rw [passesThreshold, hm] at hpass
    simp [jsGE] at hpass
  | some s =>
    have hsc : doc.score = s := by
      rw [hd]
      exact branchDoc_score className item i s hm
    refine ⟨item, hmem, ?_, ?_⟩
    · rw [hm, hsc]
    · rw [hsc]
      rw [passesThreshold, hm] at hpass
      simpa [jsGE] using hpass

theorem processWeaviateResults_score_map (results : List WeaviateItem) (t : ℚ)
    (className : String) :
    (processWeaviateResults results t className).map ProcessedDoc.score
      = (results.filter (passesThreshold className t)).map (normScoreD className) := by
  rw [processWeaviateResults_eq]
  apply mapWithIndexFrom_map_eq
  intro item hitem i
  have hpass := (List.mem_filter.mp hitem).2
  cases hm : normalizedScore className item with
  | none =>
    rw [passesThreshold, hm] at hpass
    simp [jsGE] at hpass
  | some s =>
    rw [normScoreD, hm]
    simpa using branchDoc_score className item i s hm

/-- Claim C2 counterexample: a threshold of 0 does not disable filtering: in
the default distance branch a hit with distance 2 has normalized score minus
one and is dropped at threshold 0, so the single input hit yields an empty
result. -/
theorem C2_counterexample :
    processWeaviateResults [distHit 2] 0 "GenericVectorClass" = []
      ∧ [distHit 2].length = 1 := by
  constructor
  · rw [processWeaviateResults_generic]
    norm_num [distHit, bareItem, mkAdditional, jsGE, mapWithIndex, mapWithIndexFrom]
  · rfl

/-- Claim C2 amended: result filtering keeps exactly the hits whose normalized
score is defined and not below the threshold, in their original relative order
(conjunct one equates the retained score sequence with the filtered hit
sequence); every retained document meets the threshold; and a threshold of 0
keeps every hit precisely when each hit's normalized score is defined and
nonnegative — so 0 disables filtering for certainty and lexical partitions with
nonnegative metrics, but not for a distance-partition hit with distance above
one. -/
theorem C2_amended_filtering (results : List WeaviateItem) (t : ℚ) (className : String) :
    ((processWeaviateResults results t className).map ProcessedDoc.score
        = (results.filter (passesThreshold className t)).map (normScoreD className))
    ∧ (∀ doc ∈ processWeaviateResults results t className, t ≤ doc.score)
    ∧ ((∀ item ∈ results, passesThreshold className 0 item = true) →
        (processWeaviateResults results 0 className).length = results.length) := by
  refine ⟨processWeaviateResults_score_map results t className, ?_, ?_⟩
  · intro doc hdoc
    obtain ⟨item, _, _, hle⟩ := branch_doc_facts results t className doc hdoc
    exact hle
  · intro hall
    rw [processWeaviateResults_eq, mapWithIndex, mapWithIndexFrom_length,
        List.filter_eq_self.mpr hall]

/-- Claim C2 amended witness: at threshold 0 every hit of the concrete lexical
sample (scores 9/10, 55/100, 61/100) passes, so nothing is filtered. -/
theorem C2_amended_filtering_witness :
    (processWeaviateResults sampleTORHits 0 "TORForPOC").length = sampleTORHits.length :=
  (C2_amended_filtering sampleTORHits 0 "TORForPOC").2.2
    (by norm_num [sampleTORHits, passesThreshold, normalizedScore_TOR, jsGE,
      torHit, bareItem, mkAdditional])

/-- Claim C3 counterexample: the lexical-score partition TORForPOC passes the
raw score through unnormalized: a hit whose raw score is 2 produces a document
with score 2, outside [0,1]. -/
theorem C3_counterexample :
    (processWeaviateResults [torHit 2] 0 "TORForPOC").map ProcessedDoc.score = [2]
      ∧ ¬ ((2 : ℚ) ≤ 1) := by
  constructor
  · rw [processWeaviateResults_TOR]
    norm_num [torHit, bareItem, mkAdditional, jsGE, mapWithIndex,
      mapWithIndexFrom, torDoc]
  · norm_num

/-- Claim C3 amended: every produced document's score is exactly the
partition's computed metric (1 minus distance for the default distance branch,
certainty as returned for the certainty branches, the raw lexical score for
TORForPOC); scores are bounded below by the threshold (hence nonnegative for
nonnegative thresholds), and they lie below 1 exactly when the incoming
metrics do — the engine never clamps, so [0,1] holds only when the partition's
native metric already lies in [0,1]. -/
theorem C3_amended_scores (results : List WeaviateItem) (t : ℚ) (className : String) :
    (∀ doc ∈ processWeaviateResults results t className,
        ∃ item, item ∈ results ∧ normalizedScore className item = some doc.score)
    ∧ (0 ≤ t → ∀ doc ∈ processWeaviateResults results t className, 0 ≤ doc.score)
    ∧ ((∀ item ∈ results, ∀ s, normalizedScore className item = some s → s ≤ 1) →
        ∀ doc ∈ processWeaviateResults results t className, doc.score ≤ 1) := by
  refine ⟨?_, ?_, ?_⟩
  · intro doc hdoc
    obtain ⟨item, hmem, hns, _⟩ := branch_doc_facts results t className doc hdoc
    exact ⟨item, hmem, hns⟩
  · intro ht doc hdoc
    obtain ⟨item, _, _, hle⟩ := branch_doc_facts results t className doc hdoc
    exact le_trans ht hle
  · intro hub doc hdoc
    obtain ⟨item, hmem, hns, _⟩ := branch_doc_facts results t className doc hdoc
    exact hub item hmem doc.score hns

/-- Claim C3 amended witness: with nonnegative threshold 3/5 and sample raw
scores inside [0,1], the first retained document's score is nonnegative. -/
theorem C3_amended_scores_witness : (0 : ℚ) ≤ (torDoc 0 (torHit (9/10))).score :=
  (C3_amended_scores sampleTORHits (3/5) "TORForPOC").2.1 (by norm_num)
    (torDoc 0 (torHit (9/10)))
    (by rw [processWeaviateResults_TOR]
        norm_num [sampleTORHits, jsGE, torHit, bareItem, mkAdditional,
          mapWithIndex, mapWithIndexFrom])

theorem mapGet_mapSet_self (m : List (String × RefItem)) (k : String) (v : RefItem) :
    mapGet (mapSet m k v) k = some v := by
  induction m with
  | nil => simp [mapSet, mapGet]
  | cons p rest ih =>
    obtain ⟨k1, v1⟩ := p
    by_cases h : k1 = k
    · simp [mapSet, h, mapGet]
    · simp [mapSet, h, mapGet, ih]

theorem mapGet_mapSet_ne (m : List (String × RefItem)) (k k1 : String) (v : RefItem)
    (h : k1 ≠ k) : mapGet (mapSet m k v) k1 = mapGet m k1 := by
  induction m with
  | nil => simp [mapSet, mapGet, Ne.symm h]
  | cons p rest ih =>
    obtain ⟨k2, v2⟩ := p
    by_cases h2 : k2 = k
    · subst h2
      simp [mapSet, mapGet, Ne.symm h]
    · simp only [mapSet, if_neg h2]
      by_cases h3 : k2 = k1
      · simp [mapGet, h3]
      · simp [mapGet, h3, ih]

theorem mem_mapSet (m : List (String × RefItem)) (k : String) (v : RefItem) :
    ∀ p ∈ mapSet m k v, p = (k, v) ∨ p ∈ m := by
  induction m with
  | nil =>
    intro p hp
    simp [mapSet] at hp
    exact Or.inl hp
  | cons q rest ih =>
    obtain ⟨k1, v1⟩ := q
    intro p hp
    by_cases h : k1 = k
    · rw [mapSet, if_pos h] at hp
      rcases List.mem_cons.mp hp with hp | hp
      · exact Or.inl hp
      · exact Or.inr (List.mem_cons_of_mem _ hp)
    · rw [mapSet, if_neg h] at hp
      rcases List.mem_cons.mp hp with hp | hp
      · exact Or.inr (hp ▸ List.mem_cons_self _ _)
      · rcases ih p hp with hp2 | hp2
        · exact Or.inl hp2
        · exact Or.inr (List.mem_cons_of_mem _ hp2)

theorem mem_keys_mapSet (m : List (String × RefItem)) (k : String) (v : RefItem)
    (k1 : String) :
    k1 ∈ (mapSet m k v).map Prod.fst ↔ k1 = k ∨ k1 ∈ m.map Prod.fst := by
  induction m with
  | nil => simp [mapSet]
  | cons q rest ih =>
    obtain ⟨k2, v2⟩ := q
    by_cases h : k2 = k
    · subst h
      simp [mapSet]
    · rw [mapSet, if_neg h]
      simp only [List.map_cons, List.mem_cons, ih]
      constructor
      · rintro (h2 | h2 | h2)
        · exact Or.inr (Or.inl h2)
        · exact Or.inl h2
        · exact Or.inr (Or.inr h2)
      · rintro (h2 | h2 | h2)
        · exact Or.inr (Or.inl h2)
        · exact Or.inl h2
        · exact Or.inr (Or.inr h2)

theorem nodup_keys_mapSet (m : List (String × RefItem)) (k : String) (v : RefItem)
    (h : (m.map Prod.fst).Nodup) : ((mapSet m k v).map Prod.fst).Nodup := by
  induction m with
  | nil => simp [mapSet]
  | cons q rest ih =>
    obtain ⟨k2, v2⟩ := q
    have h2 := List.nodup_cons.mp (h : (k2 :: rest.map Prod.fst).Nodup)
    by_cases hk : k2 = k
    · rw [mapSet, if_pos hk]
      simp only [List.map_cons]
      exact List.nodup_cons.mpr ⟨by rw [← hk]; exact h2.1, h2.2⟩
    · rw [mapSet, if_neg hk]
      simp only [List.map_cons]
      refine List.nodup_cons.mpr ⟨?_, ih h2.2⟩
      rw [mem_keys_mapSet]
      rintro (h3 | h3)
      · exact hk h3
      · exact h2.1 h3

theorem mapGet_mem (m : List (String × RefItem)) (k : String) (v : RefItem)
    (h : mapGet m k = some v) : (k, v) ∈ m := by
  induction m with
  | nil => cases h
  | cons q rest ih =>
    obtain ⟨k1, v1⟩ := q
    by_cases h2 : k1 = k
    · rw [mapGet, if_pos h2] at h
      injection h with h3
      subst h2
      subst h3
      exact List.mem_cons_self _ _
    · rw [mapGet, if_neg h2] at h
      exact List.mem_cons_of_mem _ (ih h)

theorem mapGet_isSome_iff (m : List (String × RefItem)) (k : String) :
    (mapGet m k).isSome ↔ k ∈ m.map Prod.fst := by
  induction m with
  | nil => simp [mapGet]
  | cons q rest ih =>
    obtain ⟨k1, v1⟩ := q
    by_cases h : k1 = k
    · simp [mapGet, h]
    · simp [mapGet, h, ih, Ne.symm h]

theorem mem_mapGet : ∀ (m : List (String × RefItem)), (m.map Prod.fst).Nodup →
    ∀ (k : String) (v : RefItem), (k, v) ∈ m → mapGet m k = some v
  | [], _, _, _, hm => absurd hm (List.not_mem_nil _)
  | (k1, v1) :: rest, hnd, k, v, hm => by
    have h2 := List.nodup_cons.mp (hnd : (k1 :: rest.map Prod.fst).Nodup)
    rcases List.mem_cons.mp hm with hm2 | hm2
    · injection hm2 with ha hb
      subst ha
      subst hb
      simp [mapGet]
    · have hkr : k ∈ rest.map Prod.fst := List.mem_map_of_mem Prod.fst hm2
      have hne : k1 ≠ k := fun hh => h2.1 (hh ▸ hkr)
      simp only [mapGet, if_neg hne]
      exact mem_mapGet rest h2.2 k v hm2

theorem count_values : ∀ (m : List (String × RefItem)) (k : String),
    (m.map Prod.fst).Nodup → (∀ p ∈ m, keyOf p.2 = p.1) →
    ((m.map Prod.snd).filter (fun r => keyOf r == k)).length
      = if (mapGet m k).isSome then 1 else 0
  | [], k, _, _ => by simp [mapGet]
  | (k1, v1) :: rest, k, hnd, hkeys => by
    have hk1 : keyOf v1 = k1 := hkeys (k1, v1) (List.mem_cons_self _ _)
    have h2 := List.nodup_cons.mp (hnd : (k1 :: rest.map Prod.fst).Nodup)
    have hrec := count_values rest k h2.2
      (fun p hp => hkeys p (List.mem_cons_of_mem _ hp))
    by_cases hkk : k1 = k
    · have hb : (keyOf v1 == k) = true := by
        rw [hk1, hkk]
        simp
      have hrest : mapGet rest k = none := by
        cases hg : mapGet rest k with
        | none => rfl
        | some v =>
          have hkm : k ∈ rest.map Prod.fst :=
            List.mem_map_of_mem Prod.fst (mapGet_mem rest k v hg)
          exact absurd (hkk ▸ hkm) h2.1
      simp only [List.map_cons, List.filter_cons, hb, if_true, List.length_cons]
      rw [hrec, hrest]
      simp [mapGet, hkk]
    · have hb : (keyOf v1 == k) = false := by
        rw [hk1]
        simp [hkk]
      simp only [List.map_cons, List.filter_cons, hb, Bool.false_eq_true, if_false]
      rw [hrec]
      simp [mapGet, hkk]

theorem mapSet_inv (pre : List RefItem) (m : List (String × RefItem)) (it : RefItem)
    (h : MapInv pre m) (hkey : keyOf it ≠ "")
    (hge : ∀ x ∈ pre, keyOf x = keyOf it → scoreOf x ≤ scoreOf it) :
    MapInv (pre ++ [it]) (mapSet m (keyOf it) it) := by
  obtain ⟨hnd, hpairs, hdom, hbest⟩ := h
  refine ⟨nodup_keys_mapSet m (keyOf it) it hnd, ?_, ?_, ?_⟩
  · intro p hp
    rcases mem_mapSet m (keyOf it) it p hp with hp2 | hp2
    · rw [hp2]
      exact ⟨rfl, hkey, List.mem_append_right _ (List.mem_singleton.mpr rfl)⟩
    · obtain ⟨ha, hb, hc⟩ := hpairs p hp2
      exact ⟨ha, hb, List.mem_append_left _ hc⟩
  · intro k hk
    by_cases hkk : k = keyOf it
    · subst hkk
      rw [mapGet_mapSet_self]
      simp only [Option.isSome_some, iff_true]
      exact ⟨it, List.mem_append_right _ (List.mem_singleton.mpr rfl), rfl⟩
    · rw [mapGet_mapSet_ne m (keyOf it) k it hkk, ← hdom k hk]
      constructor
      · rintro ⟨x, hx, hxk⟩
        rcases List.mem_append.mp hx with hx2 | hx2
        · exact ⟨x, hx2, hxk⟩
        · have hxit : x = it := List.mem_singleton.mp hx2
          rw [hxit] at hxk
          exact absurd hxk.symm hkk
      · rintro ⟨x, hx, hxk⟩
        exact ⟨x, List.mem_append_left _ hx, hxk⟩
  · intro k v hv x hx hxk
    by_cases hkk : k = keyOf it
    · subst hkk
      rw [mapGet_mapSet_self] at hv
      injection hv with hv2
      rcases List.mem_append.mp hx with hx2 | hx2
      · rw [← hv2]
        exact hge x hx2 hxk
      · have hxit : x = it := List.mem_singleton.mp hx2
        rw [hxit, ← hv2]
    · rw [mapGet_mapSet_ne m (keyOf it) k it hkk] at hv
      rcases List.mem_append.mp hx with hx2 | hx2
      · exact hbest k v hv x hx2 hxk
      · have hxit : x = it := List.mem_singleton.mp hx2
        rw [hxit] at hxk
        exact absurd hxk.symm hkk

theorem mapKeep_inv (pre : List RefItem) (m : List (String × RefItem)) (it : RefItem)
    (h : MapInv pre m)
    (hcase : keyOf it = ""
      ∨ ∃ prev, mapGet m (keyOf it) = some prev ∧ scoreOf it ≤ scoreOf prev) :
    MapInv (pre ++ [it]) m := by
  obtain ⟨hnd, hpairs, hdom, hbest⟩ := h
  refine ⟨hnd, ?_, ?_, ?_⟩
  · intro p hp
    obtain ⟨ha, hb, hc⟩ := hpairs p hp
    exact ⟨ha, hb, List.mem_append_left _ hc⟩
  · intro k hk
    constructor
    · rintro ⟨x, hx, hxk⟩
      rcases List.mem_append.mp hx with hx2 | hx2
      · exact (hdom k hk).mp ⟨x, hx2, hxk⟩
      · have hxit : x = it := List.mem_singleton.mp hx2
        rw [hxit] at hxk
        rcases hcase with hcase | ⟨prev, hprev, _⟩
        · rw [hcase] at hxk
          exact absurd hxk.symm hk
        · rw [hxk] at hprev
          rw [hprev]
          rfl
    · intro hs
      obtain ⟨x, hx, hxk⟩ := (hdom k hk).mpr hs
      exact ⟨x, List.mem_append_left _ hx, hxk⟩
  · intro k v hv x hx hxk
    rcases List.mem_append.mp hx with hx2 | hx2
    · exact hbest k v hv x hx2 hxk
    · have hxit : x = it := List.mem_singleton.mp hx2
      subst hxit
      rcases hcase with hcase | ⟨prev, hprev, hle⟩
      · exfalso
        have hk0 : k = "" := by rw [← hxk, hcase]
        have hmem := mapGet_mem m k v hv
        exact (hpairs (k, v) hmem).2.1 hk0
      · rw [← hxk] at hv
        rw [hprev] at hv
        injection hv with hv2
        rw [← hv2]
        exact hle

theorem dedupeStep_inv (pre : List RefItem) (m : List (String × RefItem)) (it : RefItem)
    (h : MapInv pre m) : MapInv (pre ++ [it]) (dedupeStep m it) := by
  by_cases hkey : keyOf it = ""
  · have hstep : dedupeStep m it = m := by
      simp [dedupeStep, hkey]
    rw [hstep]
    exact mapKeep_inv pre m it h (Or.inl hkey)
  · cases hget : mapGet m (keyOf it) with
    | none =>
      have hstep : dedupeStep m it = mapSet m (keyOf it) it := by
        simp [dedupeStep, hkey, hget]
      rw [hstep]
      refine mapSet_inv pre m it h hkey ?_
      intro x hx hxk
      exfalso
      have hs : (mapGet m (keyOf it)).isSome := (h.2.2.1 (keyOf it) hkey).mp ⟨x, hx, hxk⟩
      rw [hget] at hs
      cases hs
    | some prev =>
      by_cases hlt : scoreOf prev < scoreOf it
      · have hstep : dedupeStep m it = mapSet m (keyOf it) it := by
          simp [dedupeStep, hkey, hget, hlt]
        rw [hstep]
        refine mapSet_inv pre m it h hkey ?_
        intro x hx hxk
        exact le_of_lt (lt_of_le_of_lt (h.2.2.2 (keyOf it) prev hget x hx hxk) hlt)
      · have hstep : dedupeStep m it = m := by
          simp [dedupeStep, hkey, hget, hlt]
        rw [hstep]
        exact mapKeep_inv pre m it h (Or.inr ⟨prev, hget, le_of_not_lt hlt⟩)

theorem foldl_dedupe_inv : ∀ (items pre : List RefItem) (m : List (String × RefItem)),
    MapInv pre m → MapInv (pre ++ items) (items.foldl dedupeStep m)
  | [], pre, m, h => by simpa using h
  | x :: xs, pre, m, h => by
    have h3 := foldl_dedupe_inv xs (pre ++ [x]) (dedupeStep m x) (dedupeStep_inv pre m x h)
    simpa [List.append_assoc] using h3

theorem mapInv_nil : MapInv [] [] := by
  refine ⟨List.nodup_nil, ?_, ?_, ?_⟩
  · intro p hp
    cases hp
  · intro k _
    simp [mapGet]
  · intro k v hv
    cases hv

/-- Claim C1: for any nonblank external identifier occurring among the
retrieved items, the deduplicated citation set keeps exactly one entry with
that identifier, that entry is one of the input items, and its score (with
missing scores read as 0, as the source's score-coalescing does) is the
maximum over all items carrying that identifier. -/
theorem C1_dedupe_keeps_highest (items : List RefItem) (k : String)
    (hk : k ≠ "") (hex : ∃ it ∈ items, keyOf it = k) :
    ((dedupeByInstanceID items).filter (fun r => keyOf r == k)).length = 1
    ∧ (∀ r ∈ dedupeByInstanceID items, keyOf r = k →
        r ∈ items ∧ ∀ it ∈ items, keyOf it = k → scoreOf it ≤ scoreOf r) := by
  have hinv : MapInv items (items.foldl dedupeStep []) := by
    have h0 := foldl_dedupe_inv items [] [] mapInv_nil
    simpa using h0
  obtain ⟨hnd, hpairs, hdom, hbest⟩ := hinv
  have hdd : dedupeByInstanceID items = (items.foldl dedupeStep []).map Prod.snd := rfl
  have hsome : (mapGet (items.foldl dedupeStep []) k).isSome := (hdom k hk).mp hex
  constructor
  · rw [hdd, count_values (items.foldl dedupeStep []) k hnd
          (fun p hp => (hpairs p hp).1), if_pos hsome]
  · intro r hr hrk
    rw [hdd] at hr
    obtain ⟨p, hp, hpr⟩ := List.mem_map.mp hr
    have hkey1 := (hpairs p hp).1
    have hmem := (hpairs p hp).2.2
    have hpk : p.1 = k := by rw [← hkey1, hpr, hrk]
    have hpeq : p = (k, r) := by
      obtain ⟨p1, p2⟩ := p
      simp only at hpk hpr
      rw [hpk, hpr]
    have hget : mapGet (items.foldl dedupeStep []) k = some r := by
      apply mem_mapGet _ hnd
      rw [← hpeq]
      exact hp
    refine ⟨by rw [← hpr]; exact hmem, ?_⟩
    intro x hx hxk
    exact hbest k r hget x hx hxk

/-- Claim C1 witness: two items share identifier A with scores 72/100 and
91/100; the deduplicated set keeps exactly one entry for A. -/
theorem C1_dedupe_keeps_highest_witness :
    ((dedupeByInstanceID demoRefItems).filter (fun r => keyOf r == "A")).length = 1 :=
  (C1_dedupe_keeps_highest demoRefItems "A" (by decide)
    ⟨refA72, List.mem_cons_self _ _, by decide⟩).1
